import Mathlib

/-!
# Verification of the anytype-publish-server metadata and upload pipeline

Shallow embedding of the publish server's data model and operations:

* `domain/object.go` — the `Object` and `Publish` records.
* `publish/publishrepo/publishrepo.go` — the Mongo-backed repository
  (`ObjectCreate`, `changeObjectUri`, `createPublish`, `ObjectDelete`,
  `markPublishToDelete`, `FinalizePublish`, `getPublishByQuery`,
  `GetPublish`, `IterateReadyToDeleteIds`, `DeletePublish`,
  `DeleteOutdatedPublishes`, `DeleteOutdatedObjects`).
* `publish/service.go` — the service layer (`UploadTar`, `uploadTar`,
  `Cleanup`).
* `store/store.go` — the S3 adapter's `DeletePath` (prefix delete).
* `gateway/gateway.go` — the page-cache lookup (`handlePage`,
  `newCacheId`, `invalidateCache`).

Collections are modelled as lists of records in insertion order: `FindOne`
is the first list element matching the filter, `InsertOne` appends and
fails on a duplicate `_id` (the unique primary index), `UpdateOne`
rewrites the first match, `DeleteOne` erases the first match, and
`DeleteMany` filters.  A Mongo transaction (`db.Tx`) either commits the
final state or aborts leaving the state unchanged; transactional
operations therefore return `Except`, and `applyTx` reads the resulting
state (the input state on error).
-/

namespace PublishServer

/-- `domain.PublishStatus` (`domain/object.go` via `unnamed/part_001`). -/
inductive PublishStatus where
  | created
  | published
  | readyToDelete
  deriving DecidableEq, Repr

/-- `domain.Publish` (`unnamed/part_001`).  `primitive.ObjectID` values are
modelled as `Nat`; the embedded creation instant of an ObjectID is the
number itself (ObjectIDs are monotonic in creation time). -/
structure Publish where
  id : Nat
  objectId : String
  status : PublishStatus
  version : String
  uploadKey : String
  size : Int
  deriving DecidableEq, Repr

/-- `domain.Object` (`domain/object.go`).  `updatedTimestamp` is not a
field of the Go struct; it models the extra document field written by
`FinalizePublish`'s `$set` (it exists only at the document level). -/
structure Object where
  id : String
  activePublishId : Option Nat
  identity : String
  spaceId : String
  objectId : String
  uri : String
  timestamp : Int
  updatedTimestamp : Option Int := none
  deriving DecidableEq, Repr

/-- `domain.ObjectWithPublish`. -/
structure ObjectWithPublish where
  object : Object
  publish : Option Publish
  deriving DecidableEq, Repr

/-- The two Mongo collections of the repository (`publishrepo.go`:
`objectsColl` and `publishColl`), in insertion order. -/
structure DbState where
  objects : List Object
  publishes : List Publish
  deriving DecidableEq, Repr

/-- Errors surfaced by the repository.  `uriNotUnique` and `notFound` are
the registered domain errors of `publishapi` (`unnamed/part_004`);
`noDocuments` is Mongo's raw `ErrNoDocuments` returned unmapped;
`duplicateKey` is a raw duplicate-key error returned unmapped. -/
inductive RepoErr where
  | uriNotUnique
  | notFound
  | noDocuments
  | duplicateKey
  deriving DecidableEq, Repr

/-- The compound filter `{identity, spaceId, objectId}` used by
`ObjectCreate`, `ObjectDelete` and `ObjectPublishStatus`. -/
def objMatches (identity spaceId objectId : String) (o : Object) : Bool :=
  o.identity == identity && o.spaceId == spaceId && o.objectId == objectId

/-- `FindOne` on the object collection with the compound filter. -/
def findObject (objs : List Object) (identity spaceId objectId : String) :
    Option Object :=
  objs.find? (objMatches identity spaceId objectId)

/-- `InsertOne` on the object collection: appends, and raises a
duplicate-key error when the `_id` already exists (the unique primary
index on `_id`).  Both call sites in `publishrepo.go` map
`IsDuplicateKeyError` to `ErrUriNotUnique`. -/
def insertObject (objs : List Object) (o : Object) :
    Except RepoErr (List Object) :=
  if objs.any (fun x => x.id == o.id) then .error .uriNotUnique
  else .ok (objs ++ [o])

/-- `DeleteOne` by `_id` on the object collection. -/
def deleteObjectById (objs : List Object) (id : String) : List Object :=
  objs.eraseP (fun x => x.id == id)

/-- `UpdateOne` by `_id` on the object collection: rewrites the first
matching document; no match is a no-op. -/
def updateObjectById (objs : List Object) (id : String) (f : Object → Object) :
    List Object :=
  match objs with
  | [] => []
  | o :: rest =>
      if o.id == id then f o :: rest
      else o :: updateObjectById rest id f

/-- `UpdateOne` by `_id` on the publish collection. -/
def updatePublishById (pubs : List Publish) (id : Nat) (f : Publish → Publish) :
    List Publish :=
  match pubs with
  | [] => []
  | p :: rest =>
      if p.id == id then f p :: rest
      else p :: updatePublishById rest id f

/-- `DeleteOne` by `_id` on the publish collection (`DeletePublish`). -/
def deletePublishById (pubs : List Publish) (id : Nat) : List Publish :=
  pubs.eraseP (fun p => p.id == id)

/-- `publishRepo.createPublish` (publishrepo.go:161): inserts a fresh
Publish in `CREATED` for the object.  The fresh ObjectID and the fresh
uuid upload key are passed in as parameters.  `InsertOne`'s error is
returned unmapped. -/
def createPublish (pubs : List Publish) (object : Object) (version : String)
    (newId : Nat) (newKey : String) : Except RepoErr (Publish × List Publish) :=
  let pub : Publish :=
    { id := newId, objectId := object.id, status := .created,
      version := version, uploadKey := newKey, size := 0 }
  if pubs.any (fun p => p.id == newId) then .error .duplicateKey
  else .ok (pub, pubs ++ [pub])

/-- `publishRepo.changeObjectUri` (publishrepo.go:146): `DeleteOne` by the
old `_id`, rewrite `Id` and `Uri`, re-insert; a duplicate key on insert
maps to `ErrUriNotUnique`.  Returns the updated collection and the
re-inserted document. -/
def changeObjectUri (objs : List Object) (object : Object) (uri : String) :
    Except RepoErr (List Object × Object) :=
  let objs1 := deleteObjectById objs object.id
  let object' := { object with id := object.identity ++ "/" ++ uri, uri := uri }
  match insertObject objs1 object' with
  | .error e => .error e
  | .ok objs2 => .ok (objs2, object')

/-- `publishRepo.ObjectCreate` (publishrepo.go:99), the repository side of
ReserveOrUpdate, run inside `db.Tx`.  `now` is `time.Now().Unix()`;
`newPubId`/`newKey` are the fresh publish ObjectID and upload key.  On
error the transaction aborts, so no state is returned. -/
def ObjectCreate (st : DbState) (object : Object) (version : String)
    (now : Int) (newPubId : Nat) (newKey : String) :
    Except RepoErr (ObjectWithPublish × DbState) :=
  let objectId := object.identity ++ "/" ++ object.uri
  match findObject st.objects object.identity object.spaceId object.objectId with
  | some existingObject =>
      if existingObject.uri ≠ object.uri then
        match changeObjectUri st.objects existingObject object.uri with
        | .error e => .error e
        | .ok (objs', existingObject') =>
            match createPublish st.publishes existingObject' version newPubId newKey with
            | .error e => .error e
            | .ok (pub, pubs') =>
                .ok (⟨existingObject', some pub⟩, ⟨objs', pubs'⟩)
      else
        match createPublish st.publishes existingObject version newPubId newKey with
        | .error e => .error e
        | .ok (pub, pubs') =>
            .ok (⟨existingObject, some pub⟩, ⟨st.objects, pubs'⟩)
  | none =>
      let newObj : Object :=
        { id := objectId, activePublishId := none,
          identity := object.identity, spaceId := object.spaceId,
          objectId := object.objectId, uri := object.uri, timestamp := now }
      match insertObject st.objects newObj with
      | .error e => .error e
      | .ok objs' =>
          match createPublish st.publishes newObj version newPubId newKey with
          | .error e => .error e
          | .ok (pub, pubs') => .ok (⟨newObj, some pub⟩, ⟨objs', pubs'⟩)

/-- `db.Tx` observed from outside: the state after running a transactional
operation — the new state on commit, the unchanged input state on abort
(`db/db.go:60`: the callback's error aborts the transaction). -/
def applyTx {α : Type} (st : DbState) (r : Except RepoErr (α × DbState)) : DbState :=
  match r with
  | .ok (_, st') => st'
  | .error _ => st

/-- `publishRepo.markPublishToDelete` (publishrepo.go:260): `UpdateOne`
setting `status = READY_TO_DELETE`. -/
def markPublishToDelete (pubs : List Publish) (id : Nat) : List Publish :=
  updatePublishById pubs id (fun p => { p with status := .readyToDelete })

/-- `publishRepo.ObjectDelete` (publishrepo.go:241), run inside `db.Tx`:
find by the compound key, delete the Object, tombstone its active Publish.
A missing document surfaces Mongo's `ErrNoDocuments` unmapped. -/
def ObjectDelete (st : DbState) (object : Object) :
    Except RepoErr (String × DbState) :=
  match findObject st.objects object.identity object.spaceId object.objectId with
  | none => .error .noDocuments
  | some existingObject =>
      let objs' := deleteObjectById st.objects existingObject.id
      match existingObject.activePublishId with
      | some pid => .ok (existingObject.uri, ⟨objs', markPublishToDelete st.publishes pid⟩)
      | none => .ok (existingObject.uri, ⟨objs', st.publishes⟩)

/-- `publishRepo.FinalizePublish` (publishrepo.go:286), run inside
`db.Tx`: tombstone the previous active publish, `$set` the publish's
`status` and `size` (and nothing else: the stored `uploadKey` is not
touched), `$set` the object's `activePublishId` and `updatedTimestamp`.
The body performs no fallible reads, so the transaction always commits. -/
def FinalizePublish (st : DbState) (obj : Object) (pub : Publish) (now : Int) :
    DbState :=
  let pubs1 :=
    match obj.activePublishId with
    | some prevId => markPublishToDelete st.publishes prevId
    | none => st.publishes
  let pubs2 := updatePublishById pubs1 pub.id
    (fun p => { p with status := pub.status, size := pub.size })
  let objs' := updateObjectById st.objects obj.id
    (fun o => { o with activePublishId := some pub.id, updatedTimestamp := some now })
  ⟨objs', pubs2⟩

/-- `publishRepo.getPublishByQuery` (publishrepo.go:195) specialised to
the derived-id query of `ResolveUri`: `FindOne` by `_id`; a missing
active publish clears `activePublishId` in the in-memory result only. -/
def ResolveUri (st : DbState) (identity uri : String) :
    Except RepoErr ObjectWithPublish :=
  match st.objects.find? (fun o => o.id == identity ++ "/" ++ uri) with
  | none => .error .notFound
  | some obj =>
      match obj.activePublishId with
      | some pid =>
          match st.publishes.find? (fun p => p.id == pid) with
          | some p => .ok ⟨obj, some p⟩
          | none => .ok ⟨{ obj with activePublishId := none }, none⟩
      | none => .ok ⟨obj, none⟩

/-- `publishRepo.GetPublish` (publishrepo.go:271): reverse join from a
Publish to its owning Object.  Errors from the two `FindOne`s are
returned unmapped. -/
def GetPublish (st : DbState) (pid : Nat) :
    Except RepoErr (Object × Publish) :=
  match st.publishes.find? (fun p => p.id == pid) with
  | none => .error .noDocuments
  | some pub =>
      match st.objects.find? (fun o => o.id == pub.objectId) with
      | none => .error .noDocuments
      | some obj => .ok (obj, pub)

/-! ## GC deletions and the Mongo document model

`DeleteOutdatedObjects` (publishrepo.go:363) issues its query against
fields (`activePublishId`, `timestamp`) that only object documents carry,
but runs `DeleteMany` on the publish collection (`p.publishColl`,
publishrepo.go:372).  To settle what that filter matches we model the
stored BSON documents: a document is a list of named fields, produced
from the records by their bson tags (`activePublishId,omitempty` is
omitted when nil; the Publish document has neither an `activePublishId`
nor a `timestamp` field). -/

/-- A stored BSON value (only the shapes these collections use). -/
inductive BVal where
  | str (s : String)
  | int (i : Int)
  | oid (n : Nat)
  | status (s : PublishStatus)
  deriving DecidableEq, Repr

/-- A stored BSON document: named fields in order. -/
def Doc := List (String × BVal)

/-- The document stored for an `Object` (bson tags of `domain/object.go`;
`activePublishId,omitempty` drops the field when the pointer is nil, and
`updatedTimestamp` exists only when `FinalizePublish` has set it). -/
def Object.toDoc (o : Object) : Doc :=
  [("_id", .str o.id)]
    ++ (match o.activePublishId with
        | some pid => [("activePublishId", .oid pid)]
        | none => [])
    ++ [("identity", .str o.identity), ("spaceId", .str o.spaceId),
        ("objectId", .str o.objectId), ("uri", .str o.uri),
        ("timestamp", .int o.timestamp)]
    ++ (match o.updatedTimestamp with
        | some t => [("updatedTimestamp", .int t)]
        | none => [])

/-- The document stored for a `Publish` (bson tags of `unnamed/part_001`). -/
def Publish.toDoc (p : Publish) : Doc :=
  [("_id", .oid p.id), ("objectId", .str p.objectId),
   ("status", .status p.status), ("version", .str p.version),
   ("uploadKey", .str p.uploadKey), ("size", .int p.size)]

/-- Mongo `{field: {$exists: false}}`: matches documents lacking the field. -/
def fieldAbsent (d : Doc) (field : String) : Bool :=
  !(d.any (fun f => f.1 == field))

/-- Mongo `{field: {$lt: x}}` for a numeric bound: matches only documents
whose field is present with a numeric value below the bound (a missing
field never satisfies a `$lt` comparison against a number). -/
def fieldIntLt (d : Doc) (field : String) (x : Int) : Bool :=
  match d.find? (fun f => f.1 == field) with
  | some (_, .int v) => v < x
  | _ => false

/-- The filter of `DeleteOutdatedObjects` (publishrepo.go:364):
`{activePublishId: {$exists: false}, timestamp: {$lt: before.Unix()}}`. -/
def outdatedObjectsFilter (beforeUnix : Int) (d : Doc) : Bool :=
  fieldAbsent d "activePublishId" && fieldIntLt d "timestamp" beforeUnix

/-- `publishRepo.DeleteOutdatedObjects` (publishrepo.go:363): runs
`DeleteMany` with `outdatedObjectsFilter` — against `p.publishColl`, the
publish collection.  Returns the deleted count and the new state. -/
def DeleteOutdatedObjects (st : DbState) (beforeUnix : Int) : Nat × DbState :=
  let deleted := st.publishes.filter (fun p => outdatedObjectsFilter beforeUnix p.toDoc)
  (deleted.length,
   ⟨st.objects, st.publishes.filter (fun p => !outdatedObjectsFilter beforeUnix p.toDoc)⟩)

/-- `publishRepo.DeleteOutdatedPublishes` (publishrepo.go:349):
`DeleteMany` on the publish collection of `CREATED` publishes whose
ObjectID embeds a creation instant before the bound (ids are modelled as
the embedded instant itself). -/
def DeleteOutdatedPublishes (st : DbState) (beforeId : Nat) : Nat × DbState :=
  let isOutdated := fun (p : Publish) => p.status == .created && p.id < beforeId
  ((st.publishes.filter isOutdated).length,
   ⟨st.objects, st.publishes.filter (fun p => !isOutdated p)⟩)

/-! ## Upload pipeline (`publish/service.go`) -/

/-- `defaultLimit = 10 << 20` (service.go:33). -/
def defaultLimit : Nat := 10 <<< 20

/-- A context handle: the request's own context, or `context.Background()`
(a detached context). -/
inductive Ctx where
  | request
  | background
  deriving DecidableEq, Repr

/-- A blob-store side effect issued by the service, in order. -/
inductive StoreEvent where
  | put (key : String) (ctx : Ctx)
  | delPath (path : String) (ctx : Ctx)
  deriving DecidableEq, Repr

/-- A TAR entry as seen by `uploadTar`: header name, header size and the
directory flag. -/
structure TarEntry where
  name : String
  size : Nat
  isDir : Bool
  deriving DecidableEq, Repr

/-- `strings.TrimPrefix(name, "/")`: removes one leading slash. -/
def trimLeadingSlash (s : String) : String :=
  if s.data.head? == some '/' then s.drop 1 else s

/-- Errors of the upload endpoint (`service.go:132`). -/
inductive UploadErr where
  | repo (e : RepoErr)
  | invalidUploadKey
  | notCreatedState
  | limitExceeded
  deriving DecidableEq, Repr

/-- `publishService.uploadTar` (service.go:166): stream the TAR; for each
non-directory entry `Put` a blob at `{publishId}/{trimmedName}`, add the
header size to the running total, and fail the moment the total exceeds
the limit (the check runs after the `Put`).  Returns the final size and
the `Put` events issued, or the events issued up to the failure. -/
def uploadTarLoop (publishId : String) (limit : Nat) :
    List TarEntry → Nat → List StoreEvent →
    (Except UploadErr Nat) × List StoreEvent
  | [], size, events => (.ok size, events)
  | e :: rest, size, events =>
      if e.isDir then uploadTarLoop publishId limit rest size events
      else
        let fileName := publishId ++ "/" ++ trimLeadingSlash e.name
        let events' := events ++ [.put fileName .request]
        let size' := size + e.size
        if size' > limit then (.error .limitExceeded, events')
        else uploadTarLoop publishId limit rest size' events'

/-- `primitive.ObjectID.Hex`, modelled as the (injective) decimal
rendering of the id. -/
def idHex (n : Nat) : String := toString n

/-- `publishService.UploadTar` (service.go:132): load the publish by id,
check the upload key and the `CREATED` status, stream the TAR under the
limit, and on success finalize with the accumulated size,
`status = PUBLISHED` and an emptied in-memory upload key.  The deferred
cleanup (service.go:147) fires `store.DeletePath(publishId)` on a
detached `context.Background()` whenever an error is returned.  `now` is
the finalize instant.  Returns the result, the resulting metadata state
and the blob-store events in order. -/
def UploadTar (st : DbState) (publishId : Nat) (uploadKey : String)
    (entries : List TarEntry) (limit : Nat) (now : Int) :
    (Except UploadErr Unit) × DbState × List StoreEvent :=
  match GetPublish st publishId with
  | .error e => (.error (.repo e), st, [])
  | .ok (obj, pub) =>
      if pub.uploadKey ≠ uploadKey then
        (.error .invalidUploadKey, st, [.delPath (idHex publishId) .background])
      else if pub.status ≠ .created then
        (.error .notCreatedState, st, [.delPath (idHex publishId) .background])
      else
        match uploadTarLoop (idHex publishId) limit entries 0 [] with
        | (.error e, events) =>
            (.error e, st, events ++ [.delPath (idHex publishId) .background])
        | (.ok size, events) =>
            let pub' := { pub with size := (size : Int), status := .published,
                                   uploadKey := "" }
            (.ok (), FinalizePublish st obj pub' now, events)

/-- Whether `p` is a leading piece of `s` (S3 key-prefix matching,
character-wise). -/
def strIsPfx (p s : String) : Bool := p.data.isPrefixOf s.data

/-- The blob store as the list of stored keys; `Put` appends and
`DeletePath` (store.go:128) lists the keys under the prefix and deletes
them. -/
def applyStoreEvents (blobs : List String) : List StoreEvent → List String
  | [] => blobs
  | .put k _ :: rest => applyStoreEvents (blobs ++ [k]) rest
  | .delPath p _ :: rest =>
      applyStoreEvents (blobs.filter (fun k => !(strIsPfx p k))) rest

/-! ## GC tick (`publishService.Cleanup`, service.go:199) -/

/-- A metadata/blob action of the GC iteration, in order. -/
inductive GcEvent where
  | delBlobPath (pid : Nat)
  | delPublishRec (pid : Nat)
  deriving DecidableEq, Repr

/-- The visitor body of `Cleanup`'s `IterateReadyToDeleteIds` call
(service.go:219), iterated over the ready-to-delete ids:
`store.DeletePath(id.Hex())` first; only when it succeeds,
`repo.DeletePublish(id)`; errors on either step are logged and the
visitor returns nil, so the iteration never aborts.  `blobDelFails` and
`pubDelFails` say which deletions fail this tick. -/
def gcLoop (blobDelFails pubDelFails : Nat → Bool) :
    List Nat → List Publish → List Publish × List GcEvent
  | [], pubs => (pubs, [])
  | id :: rest, pubs =>
      if blobDelFails id then
        let r := gcLoop blobDelFails pubDelFails rest pubs
        (r.1, .delBlobPath id :: r.2)
      else if pubDelFails id then
        let r := gcLoop blobDelFails pubDelFails rest pubs
        (r.1, .delBlobPath id :: .delPublishRec id :: r.2)
      else
        let r := gcLoop blobDelFails pubDelFails rest (deletePublishById pubs id)
        (r.1, .delBlobPath id :: .delPublishRec id :: r.2)

/-- The ids streamed by `IterateReadyToDeleteIds` (publishrepo.go:321):
the ids of publishes with `status == READY_TO_DELETE`, in order. -/
def readyToDeleteIds (pubs : List Publish) : List Nat :=
  (pubs.filter (fun p => p.status == .readyToDelete)).map (fun p => p.id)

/-- One `Cleanup` tick (service.go:199): delete outdated publishes, run
the (mistargeted) outdated-objects deletion, then drain the
ready-to-delete publishes.  `beforeId`/`beforeUnix` embed
`time.Now().Add(-time.Hour)`. -/
def Cleanup (st : DbState) (beforeId : Nat) (beforeUnix : Int)
    (blobDelFails pubDelFails : Nat → Bool) : DbState × List GcEvent :=
  let st1 := (DeleteOutdatedPublishes st beforeId).2
  let st2 := (DeleteOutdatedObjects st1 beforeUnix).2
  let r :=
    gcLoop blobDelFails pubDelFails (readyToDeleteIds st2.publishes) st2.publishes
  (⟨st2.objects, r.1⟩, r.2)

/-! ## Gateway page cache (`gateway/gateway.go`) -/

/-- A cached page entry (`pageObject`, gateway.go:369). -/
structure PageObject where
  body : String
  renderVer : String
  isNotFound : Bool
  deriving DecidableEq, Repr

/-- `cacheIdSep`: the byte-0 separator of cache keys (gateway.go:313). -/
def cacheIdSep : String := String.mk [Char.ofNat 0]

/-- `newCacheId` (gateway.go:315): `identity NUL uri NUL flag`. -/
def newCacheId (identity uri : String) (withName : Bool) : String :=
  identity ++ cacheIdSep ++ uri ++ cacheIdSep ++ (if withName then "1" else "0")

/-- `gateway.invalidateCache` (gateway.go:290): deletes the `:rver`,
`:notfound` and `:body` entries of both the `withName = true` and the
`withName = false` cache-key variants of `(identity, uri)`. -/
def invalidateCacheKeys (identity uri : String) : List String :=
  let withName := newCacheId identity uri true
  let withoutName := newCacheId identity uri false
  [withName ++ ":rver", withName ++ ":notfound", withName ++ ":body",
   withoutName ++ ":rver", withoutName ++ ":notfound", withoutName ++ ":body"]

/-- What the gateway answers to the client. -/
inductive PageResponse where
  | notFoundPage
  | okPage (body : String)
  | internalError
  deriving DecidableEq, Repr

/-- `gateway.handlePage` (gateway.go:109) after the cache read.  `cached`
is the cache-read result (`none` on a miss), `currentVer` the renderer
version captured at startup, `rendered` the outcome `renderPage` would
produce.  Mirrors: `isCacheMissed := pageObj == nil`; the entry is then
also treated as missed when it is not a not-found entry and its stored
renderer version differs (gateway.go:127); on a miss the page is
rendered (a renderer error answers 500 without caching), the body or a
404 is served, and the served object is written back to the cache only
when the lookup missed.  Returns (response, whether a render ran, the
cache write if any). -/
def handlePage (cached : Option PageObject) (currentVer : String)
    (rendered : Except Unit PageObject) :
    PageResponse × Bool × Option PageObject :=
  let missed :=
    match cached with
    | none => true
    | some p => !p.isNotFound && p.renderVer != currentVer
  if missed then
    match rendered with
    | .error _ => (.internalError, true, none)
    | .ok pageObj =>
        ((if pageObj.isNotFound then .notFoundPage else .okPage pageObj.body),
         true, some pageObj)
  else
    match cached with
    | none => (.internalError, false, none)
    | some pageObj =>
        ((if pageObj.isNotFound then .notFoundPage else .okPage pageObj.body),
         false, none)

/-- `gateway.renderPage` (gateway.go:239): a resolve failure with
`ErrNotFound`, or an object without an active publish, yields a
not-found page object whose `RenderVer` is left empty; otherwise the
rendered body is tagged with the current renderer version.  `renderBody`
abstracts the renderer output for the resolved publish. -/
def renderPage (st : DbState) (identity uri currentVer : String)
    (renderBody : Nat → String) : Except Unit PageObject :=
  match ResolveUri st identity uri with
  | .error .notFound => .ok { body := "", renderVer := "", isNotFound := true }
  | .error _ => .error ()
  | .ok owp =>
      match owp.object.activePublishId with
      | none => .ok { body := "", renderVer := "", isNotFound := true }
      | some pid =>
          .ok { body := renderBody pid, renderVer := currentVer, isNotFound := false }

/-! ## Parts modelled from the spec

The newest `publish/service.go` and `publish/publishrepo/publishrepo.go`
are not among the provided sources: the gateway calls
`publish.SetInvalidateCacheCallback` and `publish.ResolveUriWithIdentity`
(gateway.go:81, gateway.go:243) and the newest repository test drives
`ObjectCreate(ctx, obj, version) → (publish, prevUri, err)`
(`publishrepo_test.go`, second revision), but only the older revisions of
the service and the repository are present.  The `prevUri` return, the
invalidation firing and the size-tier selection are therefore modelled
from the spec below, on top of the repository operations embedded from
the available source. -/

/-- Modelled from the spec: the newest `ObjectCreate` (ReserveOrUpdate)
additionally "returns the prior `uri` so callers can invalidate
downstream caches" — the prior uri when the call changed the URI of an
existing Object, `""` otherwise.  The state transition is the embedded
`ObjectCreate` of the available source. -/
def ObjectCreatePrev (st : DbState) (object : Object) (version : String)
    (now : Int) (newPubId : Nat) (newKey : String) :
    Except RepoErr ((ObjectWithPublish × String) × DbState) :=
  let prevUri :=
    match findObject st.objects object.identity object.spaceId object.objectId with
    | some existingObject =>
        if existingObject.uri ≠ object.uri then existingObject.uri else ""
    | none => ""
  match ObjectCreate st object version now newPubId newKey with
  | .error e => .error e
  | .ok (owp, st') => .ok ((owp, prevUri), st')

/-- Modelled from the spec: the Publish flow of the newest service —
"(2) `ReserveOrUpdate`; on `prevUri != \x22\x22`, fire cache invalidation
for both `(identity,prevUri)` keys."  The invalidation callback is the
gateway's `invalidateCache` (embedded above from gateway.go:290).
Returns the repo result together with the cache keys deleted. -/
def publishFlow (st : DbState) (object : Object) (version : String)
    (now : Int) (newPubId : Nat) (newKey : String) :
    Except RepoErr ((ObjectWithPublish × String) × DbState × List String) :=
  match ObjectCreatePrev st object version now newPubId newKey with
  | .error e => .error e
  | .ok ((owp, prevUri), st') =>
      let invalidated :=
        if prevUri ≠ "" then invalidateCacheKeys object.identity prevUri else []
      .ok ((owp, prevUri), st', invalidated)

/-- Modelled from the spec: "increased 100 MiB (named identities)". -/
def increasedLimit : Nat := 100 <<< 20

/-- Modelled from the spec: "internal 6000 MiB (allow-listed names)". -/
def internalLimit : Nat := 6000 <<< 20

/-- The outcome of `nameservice.ResolveIdentity` (nameservice.go:55) for
an identity: a registered name, the `NOT_EXISTS` sentinel when the
directory reports not-found, or a resolution failure. -/
inductive NameResolution where
  | name (n : String)
  | notExists
  | failure
  deriving DecidableEq, Repr

/-- Modelled from the spec: the per-identity size-limit selection of the
newest `UploadTar` — "a default limit, a higher tier for named
identities, and an internal tier for a configured allow-list.  If
resolution fails, default."; the allow-list is the
`INCREASED_LIMIT_NAMES` configuration. -/
def getLimit (resolution : NameResolution) (allowList : List String) : Nat :=
  match resolution with
  | .name n => if allowList.contains n then internalLimit else increasedLimit
  | .notExists => defaultLimit
  | .failure => defaultLimit

/-- Modelled from the spec: the newest `UploadTar` with the tier limit
computed from the uploader identity's name resolution, over the embedded
upload pipeline. -/
def UploadTarTiered (st : DbState) (publishId : Nat) (uploadKey : String)
    (entries : List TarEntry) (resolution : NameResolution)
    (allowList : List String) (now : Int) :
    (Except UploadErr Unit) × DbState × List StoreEvent :=
  UploadTar st publishId uploadKey entries (getLimit resolution allowList) now

/-- `publishRepo.ResolvePublishUri` (publishrepo.go:187):
`getPublishByQuery` on the derived `_id` without publish hydration,
returning the Object only. -/
def ResolvePublishUri (st : DbState) (identity uri : String) :
    Except RepoErr Object :=
  match st.objects.find? (fun o => o.id == identity ++ "/" ++ uri) with
  | none => .error .notFound
  | some obj => .ok obj

/-- The cumulative uncompressed size of the non-directory entries of a
TAR stream. -/
def tarPayloadSize : List TarEntry → Nat
  | [] => 0
  | e :: rest => (if e.isDir then 0 else e.size) + tarPayloadSize rest

/-- Distinctness of the `_id` primary keys of the object collection (the
unique primary index). -/
def idsDistinct (objs : List Object) : Prop :=
  objs.Pairwise (fun a b => a.id ≠ b.id)

/-- The GC events `Cleanup`'s visitor issues for one ready-to-delete id:
the blob deletion always, the record deletion only when the blob
deletion succeeded. -/
def gcEventsFor (blobDelFails : Nat → Bool) (id : Nat) : List GcEvent :=
  if blobDelFails id then [.delBlobPath id]
  else [.delBlobPath id, .delPublishRec id]

/-! ## First helper lemmas -/

theorem deleteOutdatedObjects_eq (st : DbState) (beforeUnix : Int) :
    DeleteOutdatedObjects st beforeUnix = (0, st) := by
  have hfilt : ∀ p : Publish, outdatedObjectsFilter beforeUnix p.toDoc = false := by
    intro p
    simp [outdatedObjectsFilter, Publish.toDoc, fieldIntLt, fieldAbsent, List.find?]
  unfold DeleteOutdatedObjects
  simp only [hfilt, Bool.not_false, List.filter_false, List.filter_true,
    List.length_nil]

/-! ## Claim C3: `DeleteOutdatedObjects` -/

/-- C3: the claim says `DeleteOutdatedObjects(before)` removes exactly
the never-published objects older than `before` from the object
collection and nothing from the publish collection.  The code instead
runs the `DeleteMany` against the publish collection
(publishrepo.go:372), whose documents carry neither an
`activePublishId` nor a `timestamp` field, so the filter matches no
document at all: the call always reports zero deletions and leaves both
collections unchanged — outdated objects are never reclaimed. -/
theorem deleteOutdatedObjects_deletes_nothing :
    ∀ (st : DbState) (beforeUnix : Int),
      DeleteOutdatedObjects st beforeUnix = (0, st) :=
  fun st beforeUnix => deleteOutdatedObjects_eq st beforeUnix

/-! ## Claim C8: `ObjectDelete` on a missing object -/

/-- C8 counterexample: on an empty store, `UnPublish`'s `ObjectDelete`
returns Mongo's raw no-documents error, which is not the registered
NOT_FOUND domain error (`publishapi.ErrNotFound`) the claim promises —
`ObjectDelete` (publishrepo.go:245) returns the `FindOne` error
unmapped, unlike `getPublishByQuery` (publishrepo.go:197). -/
theorem objectDelete_missing_counterexample :
    ObjectDelete ⟨[], []⟩
        { id := "", activePublishId := none, identity := "A",
          spaceId := "s1", objectId := "o1", uri := "", timestamp := 0 } =
      .error .noDocuments
    ∧ RepoErr.noDocuments ≠ RepoErr.notFound :=
  ⟨rfl, by decide⟩

/-- C8 (amended): when `(identity, spaceId, objectId)` matches no stored
Object, `ObjectDelete` returns the driver's no-documents error (not the
NOT_FOUND domain error) and the aborted transaction leaves the stored
state unchanged. -/
theorem objectDelete_missing_returns_noDocuments (st : DbState) (object : Object)
    (h : findObject st.objects object.identity object.spaceId object.objectId = none) :
    ObjectDelete st object = .error .noDocuments
    ∧ applyTx st (ObjectDelete st object) = st := by
  unfold ObjectDelete applyTx
  rw [h]
  exact ⟨rfl, rfl⟩

/-- C8 witness: the amended theorem applied at a concrete input. -/
theorem objectDelete_missing_witness :
    ObjectDelete ⟨[], [⟨1, "A/u", .published, "v", "k", 3⟩]⟩
        { id := "", activePublishId := none, identity := "A",
          spaceId := "s1", objectId := "o1", uri := "", timestamp := 0 } =
      .error .noDocuments
    ∧ applyTx ⟨[], [⟨1, "A/u", .published, "v", "k", 3⟩]⟩
        (ObjectDelete ⟨[], [⟨1, "A/u", .published, "v", "k", 3⟩]⟩
          { id := "", activePublishId := none, identity := "A",
            spaceId := "s1", objectId := "o1", uri := "", timestamp := 0 }) =
      ⟨[], [⟨1, "A/u", .published, "v", "k", 3⟩]⟩ :=
  objectDelete_missing_returns_noDocuments _ _ (by decide)

/-! ## Claim C9: renderer-version gating of the page cache -/

/-- C9 counterexample: a cached not-found entry whose stored renderer
version (`"v1"`) differs from the current one (`"v2"`) is *served from
the cache* — no render runs and nothing is re-cached — because the
version check (gateway.go:127) is skipped for `IsNotFound` entries; the
claim says such an entry would be treated as a miss and re-rendered. -/
theorem handlePage_stale_notfound_counterexample :
    handlePage (some ⟨"", "v1", true⟩) "v2" (.ok ⟨"fresh", "v2", false⟩) =
      (.notFoundPage, false, none)
    ∧ "v1" ≠ "v2" := by
  decide

/-- C9 (amended): a cached entry that is not a not-found entry and whose
stored renderer version differs from the current one is treated as a
miss — the page is re-rendered, the fresh result is served and written
back; an entry cached as not-found is served from the cache regardless
of its stored renderer version, with no render. -/
theorem handlePage_version_gating (p q rendered : PageObject)
    (currentVer : String) (r : Except Unit PageObject)
    (hnf : p.isNotFound = false) (hver : p.renderVer ≠ currentVer)
    (hq : q.isNotFound = true) :
    handlePage (some p) currentVer (.ok rendered) =
      ((if rendered.isNotFound then PageResponse.notFoundPage
        else PageResponse.okPage rendered.body), true, some rendered)
    ∧ handlePage (some q) currentVer r = (.notFoundPage, false, none) := by
  constructor
  · unfold handlePage
    simp [hnf, hver]
  · unfold handlePage
    simp [hq]

/-- C9 witness: the amended theorem applied at a concrete input. -/
theorem handlePage_version_gating_witness :
    handlePage (some ⟨"old", "v1", false⟩) "v2" (.ok ⟨"fresh", "v2", false⟩) =
      (.okPage "fresh", true, some ⟨"fresh", "v2", false⟩)
    ∧ handlePage (some ⟨"", "", true⟩) "v2" (.ok ⟨"fresh", "v2", false⟩) =
      (.notFoundPage, false, none) := by
  have h := handlePage_version_gating ⟨"old", "v1", false⟩ ⟨"", "", true⟩
    ⟨"fresh", "v2", false⟩ "v2" (.ok ⟨"fresh", "v2", false⟩)
    (by decide) (by decide) (by decide)
  exact ⟨h.1, h.2⟩

/-! ## Helper lemmas on first-match updates -/

theorem updatePublishById_find_eq (pubs : List Publish) (i : Nat)
    (f : Publish → Publish) (hf : ∀ p, (f p).id = p.id) :
    (updatePublishById pubs i f).find? (fun p => p.id == i) =
      (pubs.find? (fun p => p.id == i)).map f := by
  induction pubs with
  | nil => rfl
  | cons p rest ih =>
    simp only [updatePublishById]
    by_cases h : p.id = i
    · simp [List.find?_cons, hf, h]
    · simp [List.find?_cons, hf, h, ih]

theorem updatePublishById_find_ne (pubs : List Publish) (i j : Nat)
    (f : Publish → Publish) (hf : ∀ p, (f p).id = p.id) (hij : j ≠ i) :
    (updatePublishById pubs i f).find? (fun p => p.id == j) =
      pubs.find? (fun p => p.id == j) := by
  induction pubs with
  | nil => rfl
  | cons p rest ih =>
    simp only [updatePublishById]
    by_cases h : p.id = i
    · have hne : p.id ≠ j := by rw [h]; exact fun hc => hij hc.symm
      simp [List.find?_cons, hf, h, hne, Ne.symm hij]
    · by_cases hpj : p.id = j
      · simp [List.find?_cons, h, hpj, hij]
      · simp [List.find?_cons, h, hpj, ih]

theorem updateObjectById_find_eq (objs : List Object) (i : String)
    (f : Object → Object) (hf : ∀ o, (f o).id = o.id) :
    (updateObjectById objs i f).find? (fun o => o.id == i) =
      (objs.find? (fun o => o.id == i)).map f := by
  induction objs with
  | nil => rfl
  | cons o rest ih =>
    simp only [updateObjectById]
    by_cases h : o.id = i
    · simp [List.find?_cons, hf, h]
    · simp [List.find?_cons, hf, h, ih]

theorem updateObjectById_find_ne (objs : List Object) (i j : String)
    (f : Object → Object) (hf : ∀ o, (f o).id = o.id) (hij : j ≠ i) :
    (updateObjectById objs i f).find? (fun o => o.id == j) =
      objs.find? (fun o => o.id == j) := by
  induction objs with
  | nil => rfl
  | cons o rest ih =>
    simp only [updateObjectById]
    by_cases h : o.id = i
    · have hne : o.id ≠ j := by rw [h]; exact fun hc => hij hc.symm
      simp [List.find?_cons, hf, h, hne, Ne.symm hij]
    · by_cases hoj : o.id = j
      · simp [List.find?_cons, h, hoj, hij]
      · simp [List.find?_cons, h, hoj, ih]

/-! ## Claim C2: `FinalizePublish` -/

/-- C2 counterexample: `FinalizePublish` does not clear the stored
`uploadKey`.  Finalizing publish 2 (whose caller-side record carries
`uploadKey = ""` exactly as `UploadTar` sets it, service.go:159) leaves
the stored document's `uploadKey` at `"k2"`: the `$set` of
publishrepo.go:299 writes only `status` and `size`. -/
theorem finalizePublish_uploadKey_counterexample :
    (FinalizePublish
        ⟨[⟨"A/hello", some 1, "A", "s1", "o1", "hello", 0, none⟩],
         [⟨1, "A/hello", .published, "v1", "x", 8⟩,
          ⟨2, "A/hello", .created, "v2", "k2", 0⟩]⟩
        ⟨"A/hello", some 1, "A", "s1", "o1", "hello", 0, none⟩
        ⟨2, "A/hello", .published, "v2", "", 8⟩ 99).publishes.find?
      (fun p => p.id == 2) =
      some ⟨2, "A/hello", .published, "v2", "k2", 8⟩
    ∧ ("k2" : String) ≠ "" := by
  decide

/-- C2 (amended): `FinalizePublish` (one atomic state transition) marks
the Object's previous `activePublishId` (if any) `READY_TO_DELETE`,
persists the Publish's new `status` and `size` — leaving the stored
`uploadKey` untouched rather than clearing it — and sets the Object's
`activePublishId` to this Publish (also stamping `updatedTimestamp`);
every other publish and object document is unchanged.  The first five
conjuncts cover an Object with a previous active publish; the last
covers the first finalize, where `activePublishId` is still `none`. -/
theorem finalizePublish_spec (st : DbState) (obj : Object) (pub : Publish)
    (now : Int) (prev : Nat)
    (hprev : obj.activePublishId = some prev)
    (hne : prev ≠ pub.id) :
    (FinalizePublish st obj pub now).publishes.find? (fun p => p.id == prev) =
      (st.publishes.find? (fun p => p.id == prev)).map
        (fun p => { p with status := PublishStatus.readyToDelete })
    ∧ (FinalizePublish st obj pub now).publishes.find? (fun p => p.id == pub.id) =
      (st.publishes.find? (fun p => p.id == pub.id)).map
        (fun p => { p with status := pub.status, size := pub.size })
    ∧ (FinalizePublish st obj pub now).objects.find? (fun o => o.id == obj.id) =
      (st.objects.find? (fun o => o.id == obj.id)).map
        (fun o => { o with activePublishId := some pub.id,
                           updatedTimestamp := some now })
    ∧ (∀ j, j ≠ prev → j ≠ pub.id →
        (FinalizePublish st obj pub now).publishes.find? (fun p => p.id == j) =
          st.publishes.find? (fun p => p.id == j))
    ∧ (∀ i, i ≠ obj.id →
        (FinalizePublish st obj pub now).objects.find? (fun o => o.id == i) =
          st.objects.find? (fun o => o.id == i))
    ∧ (∀ (obj2 : Object), obj2.activePublishId = none →
        (FinalizePublish st obj2 pub now).publishes.find? (fun p => p.id == pub.id) =
          (st.publishes.find? (fun p => p.id == pub.id)).map
            (fun p => { p with status := pub.status, size := pub.size })
        ∧ (FinalizePublish st obj2 pub now).objects.find? (fun o => o.id == obj2.id) =
          (st.objects.find? (fun o => o.id == obj2.id)).map
            (fun o => { o with activePublishId := some pub.id,
                               updatedTimestamp := some now })
        ∧ (∀ j, j ≠ pub.id →
            (FinalizePublish st obj2 pub now).publishes.find? (fun p => p.id == j) =
              st.publishes.find? (fun p => p.id == j))
        ∧ (∀ i, i ≠ obj2.id →
            (FinalizePublish st obj2 pub now).objects.find? (fun o => o.id == i) =
              st.objects.find? (fun o => o.id == i))) := by
  simp only [FinalizePublish, markPublishToDelete, hprev]
  refine ⟨?_, ?_, ?_, ?_, ?_, ?_⟩
  · exact (updatePublishById_find_ne
      (updatePublishById st.publishes prev
        (fun p => { p with status := PublishStatus.readyToDelete }))
      pub.id prev (fun p => { p with status := pub.status, size := pub.size })
      (fun p => rfl) hne).trans
      (updatePublishById_find_eq st.publishes prev
        (fun p => { p with status := PublishStatus.readyToDelete }) (fun p => rfl))
  · rw [updatePublishById_find_eq
      (updatePublishById st.publishes prev
        (fun p => { p with status := PublishStatus.readyToDelete }))
      pub.id (fun p => { p with status := pub.status, size := pub.size })
      (fun p => rfl),
      updatePublishById_find_ne st.publishes prev pub.id
        (fun p => { p with status := PublishStatus.readyToDelete })
        (fun p => rfl) (Ne.symm hne)]
  · exact updateObjectById_find_eq st.objects obj.id
      (fun o => { o with activePublishId := some pub.id,
                         updatedTimestamp := some now }) (fun o => rfl)
  · intro j hj1 hj2
    rw [updatePublishById_find_ne
      (updatePublishById st.publishes prev
        (fun p => { p with status := PublishStatus.readyToDelete }))
      pub.id j (fun p => { p with status := pub.status, size := pub.size })
      (fun p => rfl) hj2,
      updatePublishById_find_ne st.publishes prev j
        (fun p => { p with status := PublishStatus.readyToDelete })
        (fun p => rfl) hj1]
  · intro i hi
    exact updateObjectById_find_ne st.objects obj.id i
      (fun o => { o with activePublishId := some pub.id,
                         updatedTimestamp := some now }) (fun o => rfl) hi
  · intro obj2 h2
    simp only [h2]
    refine ⟨?_, ?_, ?_, ?_⟩
    · exact updatePublishById_find_eq st.publishes pub.id
        (fun p => { p with status := pub.status, size := pub.size })
        (fun p => rfl)
    · exact updateObjectById_find_eq st.objects obj2.id
        (fun o => { o with activePublishId := some pub.id,
                           updatedTimestamp := some now }) (fun o => rfl)
    · intro j hj
      exact updatePublishById_find_ne st.publishes pub.id j
        (fun p => { p with status := pub.status, size := pub.size })
        (fun p => rfl) hj
    · intro i hi
      exact updateObjectById_find_ne st.objects obj2.id i
        (fun o => { o with activePublishId := some pub.id,
                           updatedTimestamp := some now }) (fun o => rfl) hi

/-- C2 witness: the amended theorem applied at a concrete input. -/
theorem finalizePublish_spec_witness :
    (FinalizePublish
        ⟨[⟨"A/hello", some 1, "A", "s1", "o1", "hello", 0, none⟩],
         [⟨1, "A/hello", .published, "v1", "x", 8⟩,
          ⟨2, "A/hello", .created, "v2", "k2", 0⟩]⟩
        ⟨"A/hello", some 1, "A", "s1", "o1", "hello", 0, none⟩
        ⟨2, "A/hello", .published, "v2", "", 8⟩ 99).publishes.find?
      (fun p => p.id == 1) =
      (([⟨1, "A/hello", .published, "v1", "x", 8⟩,
         ⟨2, "A/hello", .created, "v2", "k2", 0⟩] : List Publish).find?
          (fun p => p.id == 1)).map
        (fun p => { p with status := PublishStatus.readyToDelete })
    ∧ (FinalizePublish
        ⟨[⟨"A/hello", some 1, "A", "s1", "o1", "hello", 0, none⟩],
         [⟨1, "A/hello", .published, "v1", "x", 8⟩,
          ⟨2, "A/hello", .created, "v2", "k2", 0⟩]⟩
        ⟨"A/hello", some 1, "A", "s1", "o1", "hello", 0, none⟩
        ⟨2, "A/hello", .published, "v2", "", 8⟩ 99).publishes.find?
      (fun p => p.id == 2) =
      (([⟨1, "A/hello", .published, "v1", "x", 8⟩,
         ⟨2, "A/hello", .created, "v2", "k2", 0⟩] : List Publish).find?
          (fun p => p.id == 2)).map
        (fun p => { p with status := PublishStatus.published, size := (8 : Int) })
    ∧ (FinalizePublish
        ⟨[⟨"A/hello", some 1, "A", "s1", "o1", "hello", 0, none⟩],
         [⟨1, "A/hello", .published, "v1", "x", 8⟩,
          ⟨2, "A/hello", .created, "v2", "k2", 0⟩]⟩
        ⟨"A/hello", some 1, "A", "s1", "o1", "hello", 0, none⟩
        ⟨2, "A/hello", .published, "v2", "", 8⟩ 99).objects.find?
      (fun o => o.id == "A/hello") =
      (([⟨"A/hello", some 1, "A", "s1", "o1", "hello", 0, none⟩] : List Object).find?
          (fun o => o.id == "A/hello")).map
        (fun o => { o with activePublishId := some 2,
                           updatedTimestamp := some (99 : Int) })
    ∧ (FinalizePublish
        ⟨[⟨"A/hello", some 1, "A", "s1", "o1", "hello", 0, none⟩],
         [⟨1, "A/hello", .published, "v1", "x", 8⟩,
          ⟨2, "A/hello", .created, "v2", "k2", 0⟩]⟩
        ⟨"B/x", none, "B", "s2", "o2", "x", 0, none⟩
        ⟨2, "A/hello", .published, "v2", "", 8⟩ 99).publishes.find?
      (fun p => p.id == 2) =
      (([⟨1, "A/hello", .published, "v1", "x", 8⟩,
         ⟨2, "A/hello", .created, "v2", "k2", 0⟩] : List Publish).find?
          (fun p => p.id == 2)).map
        (fun p => { p with status := PublishStatus.published, size := (8 : Int) }) := by
  have h := finalizePublish_spec
    ⟨[⟨"A/hello", some 1, "A", "s1", "o1", "hello", 0, none⟩],
     [⟨1, "A/hello", .published, "v1", "x", 8⟩,
      ⟨2, "A/hello", .created, "v2", "k2", 0⟩]⟩
    ⟨"A/hello", some 1, "A", "s1", "o1", "hello", 0, none⟩
    ⟨2, "A/hello", .published, "v2", "", 8⟩ 99 1 rfl (by decide)
  exact ⟨h.1, h.2.1, h.2.2.1,
    (h.2.2.2.2.2 ⟨"B/x", none, "B", "s2", "o2", "x", 0, none⟩ rfl).1⟩

/-! ## Helper lemmas on inserts and the `ObjectCreate` paths -/

theorem insertObject_ok_inv {objs : List Object} {o : Object} {objs' : List Object}
    (h : insertObject objs o = .ok objs') :
    objs.any (fun x => x.id == o.id) = false ∧ objs' = objs ++ [o] := by
  unfold insertObject at h
  by_cases hc : objs.any (fun x => x.id == o.id) = true
  · rw [if_pos hc] at h; exact absurd h (by simp)
  · rw [if_neg hc] at h
    exact ⟨Bool.eq_false_iff.2 hc, by injection h with h'; exact h'.symm⟩

theorem createPublish_ok_inv {pubs : List Publish} {o : Object} {v : String}
    {pid : Nat} {key : String} {pub : Publish} {pubs' : List Publish}
    (h : createPublish pubs o v pid key = .ok (pub, pubs')) :
    pub = ⟨pid, o.id, .created, v, key, 0⟩ ∧ pubs' = pubs ++ [pub] := by
  simp only [createPublish] at h
  by_cases hc : pubs.any (fun p => p.id == pid) = true
  · rw [if_pos hc] at h; exact absurd h (by simp)
  · rw [if_neg hc] at h
    injection h with h'
    have h1 := congrArg Prod.fst h'
    have h2 := congrArg Prod.snd h'
    simp only at h1 h2
    exact ⟨h1.symm, by rw [← h2, h1]⟩

theorem createPublish_ok_of_fresh (pubs : List Publish) (o : Object) (v : String)
    (pid : Nat) (key : String)
    (h : pubs.any (fun p => p.id == pid) = false) :
    createPublish pubs o v pid key =
      .ok (⟨pid, o.id, .created, v, key, 0⟩,
           pubs ++ [⟨pid, o.id, .created, v, key, 0⟩]) := by
  unfold createPublish
  rw [if_neg (by simp [h])]

theorem changeObjectUri_ok_inv {objs : List Object} {ex : Object} {u : String}
    {objs' : List Object} {ex' : Object}
    (h : changeObjectUri objs ex u = .ok (objs', ex')) :
    (deleteObjectById objs ex.id).any
        (fun x => x.id == ex.identity ++ "/" ++ u) = false
    ∧ ex' = { ex with id := ex.identity ++ "/" ++ u, uri := u }
    ∧ objs' = deleteObjectById objs ex.id
        ++ [{ ex with id := ex.identity ++ "/" ++ u, uri := u }] := by
  simp only [changeObjectUri] at h
  cases hins : insertObject (deleteObjectById objs ex.id)
      { ex with id := ex.identity ++ "/" ++ u, uri := u } with
  | error e => rw [hins] at h; exact absurd h (by simp)
  | ok objs2 =>
      rw [hins] at h
      injection h with h'
      have h1 := congrArg Prod.fst h'
      have h2 := congrArg Prod.snd h'
      simp only at h1 h2
      obtain ⟨hany, happ⟩ := insertObject_ok_inv hins
      exact ⟨hany, h2.symm, by rw [← h1, happ]⟩

theorem idsDistinct_append {objs : List Object} {x : Object}
    (hd : idsDistinct objs)
    (h : objs.any (fun a => a.id == x.id) = false) :
    idsDistinct (objs ++ [x]) := by
  refine List.pairwise_append.2 ⟨hd, List.pairwise_singleton _ _, ?_⟩
  intro a ha b hb
  simp only [List.mem_singleton] at hb
  subst hb
  have := List.any_eq_false.1 h a ha
  simpa using this

theorem idsDistinct_erase {objs : List Object} {id : String}
    (hd : idsDistinct objs) : idsDistinct (deleteObjectById objs id) :=
  List.Pairwise.sublist (List.eraseP_sublist objs) hd

/-- The uri-changing path of `ObjectCreate`: an existing reservation for
the inner object whose uri differs, the new derived id free, the fresh
publish id unused. -/
theorem objectCreate_changeUri (st : DbState) (req : Object) (ex : Object)
    (v : String) (now : Int) (pid : Nat) (key : String)
    (hfind : findObject st.objects req.identity req.spaceId req.objectId = some ex)
    (hu : ex.uri ≠ req.uri)
    (hfree : (deleteObjectById st.objects ex.id).any
        (fun x => x.id == ex.identity ++ "/" ++ req.uri) = false)
    (hp : st.publishes.any (fun p => p.id == pid) = false) :
    ObjectCreate st req v now pid key =
      .ok (⟨{ ex with id := ex.identity ++ "/" ++ req.uri, uri := req.uri },
            some ⟨pid, ex.identity ++ "/" ++ req.uri, .created, v, key, 0⟩⟩,
           ⟨deleteObjectById st.objects ex.id
              ++ [{ ex with id := ex.identity ++ "/" ++ req.uri, uri := req.uri }],
            st.publishes
              ++ [⟨pid, ex.identity ++ "/" ++ req.uri, .created, v, key, 0⟩]⟩) := by
  simp only [ObjectCreate, hfind]
  rw [if_pos hu]
  simp only [changeObjectUri, insertObject]
  rw [if_neg (by simp [hfree])]
  dsimp only
  rw [createPublish_ok_of_fresh _ _ v pid key hp]

/-- The fresh-reservation path of `ObjectCreate`: no existing reservation
for the inner object, the derived id free, the fresh publish id unused. -/
theorem objectCreate_new (st : DbState) (req : Object)
    (v : String) (now : Int) (pid : Nat) (key : String)
    (hfind : findObject st.objects req.identity req.spaceId req.objectId = none)
    (hfree : st.objects.any
        (fun x => x.id == req.identity ++ "/" ++ req.uri) = false)
    (hp : st.publishes.any (fun p => p.id == pid) = false) :
    ObjectCreate st req v now pid key =
      .ok (⟨{ id := req.identity ++ "/" ++ req.uri, activePublishId := none,
              identity := req.identity, spaceId := req.spaceId,
              objectId := req.objectId, uri := req.uri, timestamp := now },
            some ⟨pid, req.identity ++ "/" ++ req.uri, .created, v, key, 0⟩⟩,
           ⟨st.objects
              ++ [{ id := req.identity ++ "/" ++ req.uri, activePublishId := none,
                    identity := req.identity, spaceId := req.spaceId,
                    objectId := req.objectId, uri := req.uri, timestamp := now }],
            st.publishes
              ++ [⟨pid, req.identity ++ "/" ++ req.uri, .created, v, key, 0⟩]⟩) := by
  simp only [ObjectCreate, hfind, insertObject]
  rw [if_neg (by simp [hfree])]
  dsimp only
  rw [createPublish_ok_of_fresh _ _ v pid key hp]

/-- `ObjectCreate` preserves distinctness of the object collection's
primary keys, whichever path commits. -/
theorem objectCreate_preserves_idsDistinct (st : DbState) (o : Object)
    (v : String) (n : Int) (pid : Nat) (k : String)
    (hd : idsDistinct st.objects) :
    idsDistinct (applyTx st (ObjectCreate st o v n pid k)).objects := by
  cases hres : ObjectCreate st o v n pid k with
  | error e => simpa [applyTx] using hd
  | ok pr =>
    obtain ⟨owp, st'⟩ := pr
    show idsDistinct st'.objects
    simp only [ObjectCreate] at hres
    split at hres
    next exF hfindF =>
      split at hres
      next hu =>
        -- the uri differs: delete-then-insert
        split at hres
        · simp at hres
        next objs2 ex2 hch =>
          split at hres
          · simp at hres
          next pub2 pubs2 hcp =>
            injection hres with h'
            have h2 := congrArg Prod.snd h'
            simp only at h2
            rw [← h2]
            obtain ⟨hany, hex', hobjs⟩ := changeObjectUri_ok_inv hch
            show idsDistinct objs2
            rw [hobjs]
            exact idsDistinct_append (idsDistinct_erase hd) hany
      next hu =>
        -- same uri: the object collection is untouched
        split at hres
        · simp at hres
        next pub2 pubs2 hcp =>
          injection hres with h'
          have h2 := congrArg Prod.snd h'
          simp only at h2
          rw [← h2]
          exact hd
    next hfindF =>
      -- no reservation: plain insert
      split at hres
      · simp at hres
      next objs2 hins =>
        split at hres
        · simp at hres
        next pub2 pubs2 hcp =>
          injection hres with h'
          have h2 := congrArg Prod.snd h'
          simp only at h2
          rw [← h2]
          obtain ⟨hany, happ⟩ := insertObject_ok_inv hins
          show idsDistinct objs2
          rw [happ]
          exact idsDistinct_append hd hany

/-! ## Claim C1: uniqueness of the derived id -/

/-- C1: `ObjectCreate` keeps the derived `_id`s of the object collection
pairwise distinct (at most one Object per `identity + "/" + uri`), and in
the two-reservation scenario — same identity, distinct inner objects,
same uri — the first reservation succeeds and the second aborts with
`URI_NOT_UNIQUE`, leaving the stored collections unchanged. -/
theorem objectCreate_uri_unique (st : DbState)
    (i s1 o1 s2 o2 u v1 v2 k1 k2 : String) (now1 : Int) (v2n : Int)
    (p1 p2 : Nat)
    (hfresh1 : findObject st.objects i s1 o1 = none)
    (hfresh2 : findObject st.objects i s2 o2 = none)
    (hnou : st.objects.any (fun o => o.id == i ++ "/" ++ u) = false)
    (hp1 : st.publishes.any (fun p => p.id == p1) = false)
    (hne : s2 ≠ s1 ∨ o2 ≠ o1) :
    (∀ (st' : DbState) (o : Object) (v : String) (n : Int) (pid : Nat) (k : String),
        idsDistinct st'.objects →
        idsDistinct (applyTx st' (ObjectCreate st' o v n pid k)).objects)
    ∧ ObjectCreate st
        { id := "", activePublishId := none, identity := i, spaceId := s1,
          objectId := o1, uri := u, timestamp := 0 } v1 now1 p1 k1 =
      .ok (⟨{ id := i ++ "/" ++ u, activePublishId := none, identity := i,
              spaceId := s1, objectId := o1, uri := u, timestamp := now1 },
            some ⟨p1, i ++ "/" ++ u, .created, v1, k1, 0⟩⟩,
           ⟨st.objects
              ++ [{ id := i ++ "/" ++ u, activePublishId := none, identity := i,
                    spaceId := s1, objectId := o1, uri := u, timestamp := now1 }],
            st.publishes ++ [⟨p1, i ++ "/" ++ u, .created, v1, k1, 0⟩]⟩)
    ∧ (∀ (owp : ObjectWithPublish) (st1 : DbState),
        ObjectCreate st
          { id := "", activePublishId := none, identity := i, spaceId := s1,
            objectId := o1, uri := u, timestamp := 0 } v1 now1 p1 k1 =
          .ok (owp, st1) →
        ObjectCreate st1
          { id := "", activePublishId := none, identity := i, spaceId := s2,
            objectId := o2, uri := u, timestamp := 0 } v2 v2n p2 k2 =
          .error .uriNotUnique
        ∧ applyTx st1 (ObjectCreate st1
            { id := "", activePublishId := none, identity := i, spaceId := s2,
              objectId := o2, uri := u, timestamp := 0 } v2 v2n p2 k2) = st1) := by
  have hfirst := objectCreate_new st
    { id := "", activePublishId := none, identity := i, spaceId := s1,
      objectId := o1, uri := u, timestamp := 0 } v1 now1 p1 k1
    hfresh1 hnou hp1
  refine ⟨fun st' o v n pid k hd => objectCreate_preserves_idsDistinct st' o v n pid k hd,
    hfirst, ?_⟩
  intro owp st1 hfirst'
  rw [hfirst] at hfirst'
  injection hfirst' with h'
  have hst1 := congrArg Prod.snd h'
  simp only at hst1
  rw [← hst1]
  have hfind2 : findObject
      (st.objects
        ++ [{ id := i ++ "/" ++ u, activePublishId := none, identity := i,
              spaceId := s1, objectId := o1, uri := u, timestamp := now1 }])
      i s2 o2 = none := by
    unfold findObject at hfresh2 ⊢
    rw [List.find?_append, hfresh2, Option.none_or]
    cases hne with
    | inl h =>
        have hb : (s1 == s2) = false := by simpa using Ne.symm h
        simp [List.find?, objMatches, hb]
    | inr h =>
        have hb : (o1 == o2) = false := by simpa using Ne.symm h
        simp [List.find?, objMatches, hb]
  have hdup : ((st.objects
        ++ [({ id := i ++ "/" ++ u, activePublishId := none, identity := i,
               spaceId := s1, objectId := o1, uri := u,
               timestamp := now1 } : Object)]).any
      (fun x => x.id == i ++ "/" ++ u)) = true := by
    have hmem :
        ({ id := i ++ "/" ++ u, activePublishId := none, identity := i,
           spaceId := s1, objectId := o1, uri := u, timestamp := now1 } : Object) ∈
          st.objects
            ++ [{ id := i ++ "/" ++ u, activePublishId := none, identity := i,
                  spaceId := s1, objectId := o1, uri := u, timestamp := now1 }] := by
      simp
    refine List.any_eq_true.2 ⟨_, hmem, ?_⟩
    simp
  have hmain : ObjectCreate
      ⟨st.objects
          ++ [{ id := i ++ "/" ++ u, activePublishId := none, identity := i,
                spaceId := s1, objectId := o1, uri := u, timestamp := now1 }],
        st.publishes ++ [⟨p1, i ++ "/" ++ u, .created, v1, k1, 0⟩]⟩
      { id := "", activePublishId := none, identity := i, spaceId := s2,
        objectId := o2, uri := u, timestamp := 0 } v2 v2n p2 k2 =
      .error .uriNotUnique := by
    simp only [ObjectCreate, insertObject]
    rw [hfind2]
    dsimp only
    rw [if_pos hdup]
  exact ⟨hmain, by rw [hmain]; rfl⟩

/-- C1 witness: the theorem applied at a concrete input — identity `"A"`,
inner objects `(s1,o1)` and `(s1,o2)`, both reserving uri `"dup"`. -/
theorem objectCreate_uri_unique_witness :
    ObjectCreate
      ⟨[{ id := "A/dup", activePublishId := none, identity := "A",
          spaceId := "s1", objectId := "o1", uri := "dup", timestamp := 0 }],
       [⟨1, "A/dup", .created, "v1", "k1", 0⟩]⟩
      { id := "", activePublishId := none, identity := "A", spaceId := "s1",
        objectId := "o2", uri := "dup", timestamp := 0 } "v2" 0 2 "k2" =
      .error .uriNotUnique := by
  have h := objectCreate_uri_unique ⟨[], []⟩ "A" "s1" "o1" "s1" "o2" "dup"
    "v1" "v2" "k1" "k2" 0 0 1 2 (by decide) (by decide) (by decide) (by decide)
    (Or.inr (by decide))
  exact (h.2.2 _ _ h.2.1).1

/-! ## Claim C10: `changeObjectUri` preserves all other fields -/

/-- C10: when `ObjectCreate` changes an existing Object's URI, the
re-inserted document is the found document with only `Id` and `Uri`
rewritten — `ActivePublishId`, `Identity`, `SpaceId`, `ObjectId` and
`Timestamp` are preserved — and resolving the new URI afterwards yields
that document, so the published snapshot stays active under the new
URI. -/
theorem changeObjectUri_preserves_fields (st : DbState) (req ex : Object)
    (v : String) (now : Int) (pid : Nat) (key : String)
    (hfind : findObject st.objects req.identity req.spaceId req.objectId = some ex)
    (hu : ex.uri ≠ req.uri)
    (hfree : (deleteObjectById st.objects ex.id).any
        (fun x => x.id == ex.identity ++ "/" ++ req.uri) = false)
    (hp : st.publishes.any (fun p => p.id == pid) = false) :
    ObjectCreate st req v now pid key =
      .ok (⟨{ ex with id := ex.identity ++ "/" ++ req.uri, uri := req.uri },
            some ⟨pid, ex.identity ++ "/" ++ req.uri, .created, v, key, 0⟩⟩,
           ⟨deleteObjectById st.objects ex.id
              ++ [{ ex with id := ex.identity ++ "/" ++ req.uri, uri := req.uri }],
            st.publishes
              ++ [⟨pid, ex.identity ++ "/" ++ req.uri, .created, v, key, 0⟩]⟩)
    ∧ ({ ex with id := ex.identity ++ "/" ++ req.uri,
                 uri := req.uri } : Object).activePublishId = ex.activePublishId
    ∧ ({ ex with id := ex.identity ++ "/" ++ req.uri,
                 uri := req.uri } : Object).identity = ex.identity
    ∧ ({ ex with id := ex.identity ++ "/" ++ req.uri,
                 uri := req.uri } : Object).spaceId = ex.spaceId
    ∧ ({ ex with id := ex.identity ++ "/" ++ req.uri,
                 uri := req.uri } : Object).objectId = ex.objectId
    ∧ ({ ex with id := ex.identity ++ "/" ++ req.uri,
                 uri := req.uri } : Object).timestamp = ex.timestamp
    ∧ ResolvePublishUri (applyTx st (ObjectCreate st req v now pid key))
        ex.identity req.uri =
      .ok { ex with id := ex.identity ++ "/" ++ req.uri, uri := req.uri } := by
  have hmain := objectCreate_changeUri st req ex v now pid key hfind hu hfree hp
  refine ⟨hmain, rfl, rfl, rfl, rfl, rfl, ?_⟩
  rw [hmain]
  have hleft : (deleteObjectById st.objects ex.id).find?
      (fun o => o.id == ex.identity ++ "/" ++ req.uri) = none :=
    List.find?_eq_none.2 (fun x hx => by
      have hx2 := List.any_eq_false.1 hfree x hx
      simpa using hx2)
  unfold ResolvePublishUri
  dsimp only [applyTx]
  rw [List.find?_append, hleft, Option.none_or]
  simp [List.find?]

/-- C10 witness: the theorem applied at a concrete input. -/
theorem changeObjectUri_preserves_fields_witness :
    ObjectCreate ⟨[⟨"A/hello", some 7, "A", "s1", "o1", "hello", 5, none⟩], []⟩
      { id := "", activePublishId := none, identity := "A", spaceId := "s1",
        objectId := "o1", uri := "hi", timestamp := 0 } "v2" 9 3 "k" =
      .ok (⟨⟨"A/hi", some 7, "A", "s1", "o1", "hi", 5, none⟩,
            some ⟨3, "A/hi", .created, "v2", "k", 0⟩⟩,
           ⟨[⟨"A/hi", some 7, "A", "s1", "o1", "hi", 5, none⟩],
            [⟨3, "A/hi", .created, "v2", "k", 0⟩]⟩)
    ∧ ResolvePublishUri
        (applyTx ⟨[⟨"A/hello", some 7, "A", "s1", "o1", "hello", 5, none⟩], []⟩
          (ObjectCreate ⟨[⟨"A/hello", some 7, "A", "s1", "o1", "hello", 5, none⟩], []⟩
            { id := "", activePublishId := none, identity := "A", spaceId := "s1",
              objectId := "o1", uri := "hi", timestamp := 0 } "v2" 9 3 "k"))
        "A" "hi" =
      .ok ⟨"A/hi", some 7, "A", "s1", "o1", "hi", 5, none⟩ := by
  have h := changeObjectUri_preserves_fields
    ⟨[⟨"A/hello", some 7, "A", "s1", "o1", "hello", 5, none⟩], []⟩
    { id := "", activePublishId := none, identity := "A", spaceId := "s1",
      objectId := "o1", uri := "hi", timestamp := 0 }
    ⟨"A/hello", some 7, "A", "s1", "o1", "hello", 5, none⟩
    "v2" 9 3 "k" (by decide) (by decide) (by decide) (by decide)
  exact ⟨h.1, h.2.2.2.2.2.2⟩

/-! ## Claim C5: URI change returns the prior uri and fires invalidation -/

/-- C5 (spec-modelled flow over the embedded repository): when
ReserveOrUpdate finds an existing Object for the inner object whose uri
differs, it swaps the document by delete-then-insert under the new
derived id, returns the prior uri, and the Publish flow then deletes the
cache entries of both `(identity, prevUri)` key variants — the six redis
keys the gateway's `invalidateCache` (gateway.go:290) removes. -/
theorem publishFlow_prevUri_invalidation (st : DbState) (req ex : Object)
    (v : String) (now : Int) (pid : Nat) (key : String)
    (hfind : findObject st.objects req.identity req.spaceId req.objectId = some ex)
    (hu : ex.uri ≠ req.uri)
    (hne0 : ex.uri ≠ "")
    (hfree : (deleteObjectById st.objects ex.id).any
        (fun x => x.id == ex.identity ++ "/" ++ req.uri) = false)
    (hp : st.publishes.any (fun p => p.id == pid) = false) :
    publishFlow st req v now pid key =
      .ok ((⟨{ ex with id := ex.identity ++ "/" ++ req.uri, uri := req.uri },
             some ⟨pid, ex.identity ++ "/" ++ req.uri, .created, v, key, 0⟩⟩,
            ex.uri),
           ⟨deleteObjectById st.objects ex.id
              ++ [{ ex with id := ex.identity ++ "/" ++ req.uri, uri := req.uri }],
            st.publishes
              ++ [⟨pid, ex.identity ++ "/" ++ req.uri, .created, v, key, 0⟩]⟩,
           invalidateCacheKeys req.identity ex.uri)
    ∧ invalidateCacheKeys req.identity ex.uri =
        [newCacheId req.identity ex.uri true ++ ":rver",
         newCacheId req.identity ex.uri true ++ ":notfound",
         newCacheId req.identity ex.uri true ++ ":body",
         newCacheId req.identity ex.uri false ++ ":rver",
         newCacheId req.identity ex.uri false ++ ":notfound",
         newCacheId req.identity ex.uri false ++ ":body"] := by
  constructor
  · simp only [publishFlow, ObjectCreatePrev, hfind]
    rw [if_pos hu]
    rw [objectCreate_changeUri st req ex v now pid key hfind hu hfree hp]
    dsimp only
    rw [if_pos hne0]
  · rfl

/-- C5 witness: the theorem applied at a concrete input. -/
theorem publishFlow_prevUri_invalidation_witness :
    publishFlow ⟨[⟨"A/hello", some 7, "A", "s1", "o1", "hello", 5, none⟩], []⟩
      { id := "", activePublishId := none, identity := "A", spaceId := "s1",
        objectId := "o1", uri := "hi", timestamp := 0 } "v2" 9 3 "k" =
      .ok ((⟨⟨"A/hi", some 7, "A", "s1", "o1", "hi", 5, none⟩,
             some ⟨3, "A/hi", .created, "v2", "k", 0⟩⟩,
            "hello"),
           ⟨[⟨"A/hi", some 7, "A", "s1", "o1", "hi", 5, none⟩],
            [⟨3, "A/hi", .created, "v2", "k", 0⟩]⟩,
           invalidateCacheKeys "A" "hello")
    ∧ invalidateCacheKeys "A" "hello" =
        [newCacheId "A" "hello" true ++ ":rver",
         newCacheId "A" "hello" true ++ ":notfound",
         newCacheId "A" "hello" true ++ ":body",
         newCacheId "A" "hello" false ++ ":rver",
         newCacheId "A" "hello" false ++ ":notfound",
         newCacheId "A" "hello" false ++ ":body"] := by
  have h := publishFlow_prevUri_invalidation
    ⟨[⟨"A/hello", some 7, "A", "s1", "o1", "hello", 5, none⟩], []⟩
    { id := "", activePublishId := none, identity := "A", spaceId := "s1",
      objectId := "o1", uri := "hi", timestamp := 0 }
    ⟨"A/hello", some 7, "A", "s1", "o1", "hello", 5, none⟩
    "v2" 9 3 "k" (by decide) (by decide) (by decide) (by decide) (by decide)
  exact h

/-! ## Helper lemmas for the upload pipeline -/

theorem uploadTarLoop_ok (publishId : String) (limit : Nat) :
    ∀ (entries : List TarEntry) (size : Nat) (events : List StoreEvent),
      size + tarPayloadSize entries ≤ limit →
      (uploadTarLoop publishId limit entries size events).1 =
        .ok (size + tarPayloadSize entries) := by
  intro entries
  induction entries with
  | nil =>
      intro size events h
      simp [uploadTarLoop, tarPayloadSize]
  | cons e rest ih =>
      intro size events h
      simp only [tarPayloadSize] at h
      by_cases hd : e.isDir
      · simp only [uploadTarLoop, hd, if_true]
        have := ih size events (by simp [hd] at h; omega)
        rw [this]
        simp [hd, tarPayloadSize]
      · have hd' : e.isDir = false := by simpa using hd
        simp only [hd', Bool.false_eq_true, if_false] at h
        simp only [uploadTarLoop, hd', Bool.false_eq_true, if_false]
        rw [if_neg (by omega)]
        have := ih (size + e.size) (events ++ [.put (publishId ++ "/" ++ trimLeadingSlash e.name) .request]) (by omega)
        rw [this]
        have hd2 : e.isDir = false := by simpa using hd
        have harith : size + e.size + tarPayloadSize rest =
            size + tarPayloadSize (e :: rest) := by
          simp only [tarPayloadSize, hd2, Bool.false_eq_true, if_false]
          omega
        rw [harith]

theorem uploadTarLoop_over (publishId : String) (limit : Nat) :
    ∀ (entries : List TarEntry) (size : Nat) (events : List StoreEvent),
      size ≤ limit →
      size + tarPayloadSize entries > limit →
      (uploadTarLoop publishId limit entries size events).1 =
        .error .limitExceeded := by
  intro entries
  induction entries with
  | nil =>
      intro size events hle h
      simp only [tarPayloadSize] at h
      omega
  | cons e rest ih =>
      intro size events hle h
      simp only [tarPayloadSize] at h
      by_cases hd : e.isDir
      · simp only [uploadTarLoop, hd, if_true]
        exact ih size events hle (by simp [hd] at h; omega)
      · have hd' : e.isDir = false := by simpa using hd
        simp only [hd', Bool.false_eq_true, if_false] at h
        simp only [uploadTarLoop, hd', Bool.false_eq_true, if_false]
        by_cases hover : size + e.size > limit
        · rw [if_pos hover]
        · rw [if_neg hover]
          exact ih (size + e.size)
            (events ++ [.put (publishId ++ "/" ++ trimLeadingSlash e.name) .request])
            (by omega) (by omega)

theorem getPublish_ok_inv {st : DbState} {pid : Nat} {obj : Object} {pub : Publish}
    (h : GetPublish st pid = .ok (obj, pub)) :
    st.publishes.find? (fun p => p.id == pid) = some pub
    ∧ st.objects.find? (fun o => o.id == pub.objectId) = some obj := by
  unfold GetPublish at h
  cases h1 : st.publishes.find? (fun p => p.id == pid) with
  | none => rw [h1] at h; simp at h
  | some pub1 =>
      rw [h1] at h
      dsimp only at h
      cases h2 : st.objects.find? (fun o => o.id == pub1.objectId) with
      | none => rw [h2] at h; simp at h
      | some obj1 =>
          rw [h2] at h
          dsimp only at h
          injection h with h'
          have ho := congrArg Prod.fst h'
          have hp := congrArg Prod.snd h'
          simp only at ho hp
          rw [hp] at h2
          rw [ho] at h2
          exact ⟨by rw [hp], h2⟩

theorem uploadTar_run_cases (st : DbState) (pid : Nat) (key : String)
    (obj : Object) (pub : Publish) (entries : List TarEntry) (limit : Nat)
    (now : Int)
    (hget : GetPublish st pid = .ok (obj, pub))
    (hkey : pub.uploadKey = key) (hstatus : pub.status = .created) :
    UploadTar st pid key entries limit now =
      (match uploadTarLoop (idHex pid) limit entries 0 [] with
       | (.error e, events) =>
           (.error e, st, events ++ [.delPath (idHex pid) .background])
       | (.ok size, events) =>
           (.ok (), FinalizePublish st obj
             { pub with size := (size : Int), status := .published,
                        uploadKey := "" } now, events)) := by
  simp only [UploadTar, hget]
  rw [if_neg (by simp [hkey]), if_neg (by simp [hstatus])]

theorem uploadTar_limitExceeded_iff (st : DbState) (pid : Nat) (key : String)
    (obj : Object) (pub : Publish) (entries : List TarEntry) (limit : Nat)
    (now : Int)
    (hget : GetPublish st pid = .ok (obj, pub))
    (hkey : pub.uploadKey = key) (hstatus : pub.status = .created) :
    ((UploadTar st pid key entries limit now).1 = .error .limitExceeded ↔
      tarPayloadSize entries > limit) := by
  rw [uploadTar_run_cases st pid key obj pub entries limit now hget hkey hstatus]
  cases hrun : uploadTarLoop (idHex pid) limit entries 0 [] with
  | mk r evs =>
      cases r with
      | error e =>
          constructor
          · intro _
            by_contra hnot
            have hok := uploadTarLoop_ok (idHex pid) limit entries 0 []
              (by omega)
            rw [hrun] at hok
            exact absurd hok (by simp)
          · intro _
            have herr := uploadTarLoop_over (idHex pid) limit entries 0 []
              (Nat.zero_le _) (by omega)
            rw [hrun] at herr
            dsimp only at herr
            injection herr with he
            rw [he]
      | ok size =>
          constructor
          · intro hcontra
            exact absurd hcontra (by simp)
          · intro hover
            have herr := uploadTarLoop_over (idHex pid) limit entries 0 []
              (Nat.zero_le _) (by omega)
            rw [hrun] at herr
            exact absurd herr (by simp)

theorem applyStoreEvents_append (blobs : List String) (e1 e2 : List StoreEvent) :
    applyStoreEvents blobs (e1 ++ e2) =
      applyStoreEvents (applyStoreEvents blobs e1) e2 := by
  induction e1 generalizing blobs with
  | nil => rfl
  | cons e rest ih =>
      cases e with
      | put k c => simp [applyStoreEvents, ih]
      | delPath p c => simp [applyStoreEvents, ih]

theorem strIsPfx_of_append {a b k : String} (h : strIsPfx (a ++ b) k = true) :
    strIsPfx a k = true := by
  unfold strIsPfx at h ⊢
  rw [List.isPrefixOf_iff_prefix] at h ⊢
  rw [String.data_append] at h
  exact (List.prefix_append a.data b.data).trans h

/-! ## Claim C4: per-identity size tiers -/

/-- C4 (tier selection modelled from the spec, enforcement from the
embedded `uploadTar` loop): the upload limit is chosen from the Name
Resolver outcome — default 10 MiB when the identity has no name or
resolution fails, increased 100 MiB for named identities, internal
6000 MiB for allow-listed names — and the upload fails with
LIMIT_EXCEEDED exactly when the TAR payload exceeds the selected
tier. -/
theorem uploadTar_limit_tiers (st : DbState) (pid : Nat) (key : String)
    (obj : Object) (pub : Publish) (entries : List TarEntry)
    (allowList : List String) (now : Int)
    (hget : GetPublish st pid = .ok (obj, pub))
    (hkey : pub.uploadKey = key) (hstatus : pub.status = .created) :
    (∀ res, ((UploadTarTiered st pid key entries res allowList now).1 =
        .error .limitExceeded ↔
      tarPayloadSize entries > getLimit res allowList))
    ∧ getLimit .notExists allowList = defaultLimit
    ∧ getLimit .failure allowList = defaultLimit
    ∧ (∀ n, allowList.contains n = false →
        getLimit (.name n) allowList = increasedLimit)
    ∧ (∀ n, allowList.contains n = true →
        getLimit (.name n) allowList = internalLimit)
    ∧ defaultLimit = 10 * 1024 * 1024
    ∧ increasedLimit = 100 * 1024 * 1024
    ∧ internalLimit = 6000 * 1024 * 1024 := by
  refine ⟨?_, rfl, rfl, ?_, ?_, by decide, by decide, by decide⟩
  · intro res
    exact uploadTar_limitExceeded_iff st pid key obj pub entries
      (getLimit res allowList) now hget hkey hstatus
  · intro n hn
    have hn2 : n ∉ allowList := by simpa using hn
    simp [getLimit, hn2]
  · intro n hn
    have hn2 : n ∈ allowList := by simpa using hn
    simp [getLimit, hn2]

/-- C4 witness: the theorem applied at a concrete input. -/
theorem uploadTar_limit_tiers_witness :
    ((UploadTarTiered
        ⟨[⟨"A/u", none, "A", "s1", "o1", "u", 0, none⟩],
         [⟨5, "A/u", .created, "v", "k", 0⟩]⟩
        5 "k" [⟨"f", 3, false⟩] .notExists ["friend"] 0).1 =
      .error .limitExceeded ↔
      tarPayloadSize [⟨"f", 3, false⟩] > getLimit .notExists ["friend"])
    ∧ getLimit .notExists ["friend"] = defaultLimit
    ∧ (getLimit (.name "other") ["friend"] = increasedLimit)
    ∧ (getLimit (.name "friend") ["friend"] = internalLimit) := by
  have h := uploadTar_limit_tiers
    ⟨[⟨"A/u", none, "A", "s1", "o1", "u", 0, none⟩],
     [⟨5, "A/u", .created, "v", "k", 0⟩]⟩
    5 "k" ⟨"A/u", none, "A", "s1", "o1", "u", 0, none⟩
    ⟨5, "A/u", .created, "v", "k", 0⟩ [⟨"f", 3, false⟩] ["friend"] 0
    rfl (by decide) (by decide)
  exact ⟨h.1 .notExists, h.2.1, h.2.2.2.1 "other" (by decide),
    h.2.2.2.2.1 "friend" (by decide)⟩

/-! ## Claim C6: limit enforcement and blob cleanup -/

/-- C6: under the default 10 MiB tier, a TAR whose cumulative
uncompressed non-directory payload exceeds the limit makes `UploadTar`
return an error; the deferred cleanup then deletes the whole
`{publishId}` blob prefix on a detached background context (the last
store event), the metadata state is untouched and the stored Publish
remains `CREATED` — it is never finalized. -/
theorem uploadTar_limit_exceeded_cleanup (st : DbState) (pid : Nat)
    (key : String) (obj : Object) (pub : Publish) (entries : List TarEntry)
    (now : Int)
    (hget : GetPublish st pid = .ok (obj, pub))
    (hkey : pub.uploadKey = key) (hstatus : pub.status = .created)
    (hover : tarPayloadSize entries > defaultLimit) :
    (UploadTar st pid key entries defaultLimit now).1 = .error .limitExceeded
    ∧ (UploadTar st pid key entries defaultLimit now).2.1 = st
    ∧ (UploadTar st pid key entries defaultLimit now).2.2 =
        (uploadTarLoop (idHex pid) defaultLimit entries 0 []).2
          ++ [.delPath (idHex pid) .background]
    ∧ (∀ (blobs : List String) (k2 : String),
        k2 ∈ applyStoreEvents blobs
          (UploadTar st pid key entries defaultLimit now).2.2 →
        strIsPfx (idHex pid) k2 = false
        ∧ strIsPfx (idHex pid ++ "/") k2 = false)
    ∧ (UploadTar st pid key entries defaultLimit now).2.1.publishes.find?
        (fun p => p.id == pid) = some pub
    ∧ pub.status = .created := by
  have hrc := uploadTar_run_cases st pid key obj pub entries defaultLimit now
    hget hkey hstatus
  have herr := uploadTarLoop_over (idHex pid) defaultLimit entries 0 []
    (Nat.zero_le _) (by omega)
  obtain ⟨hfindp, hfindo⟩ := getPublish_ok_inv hget
  cases hrun : uploadTarLoop (idHex pid) defaultLimit entries 0 [] with
  | mk r evs =>
      rw [hrun] at hrc herr
      dsimp only at herr
      subst herr
      refine ⟨by rw [hrc], by rw [hrc], by rw [hrc], ?_, by rw [hrc]; exact hfindp, hstatus⟩
      intro blobs k2 hk2
      rw [hrc] at hk2
      dsimp only at hk2
      rw [applyStoreEvents_append] at hk2
      simp only [applyStoreEvents] at hk2
      have hmem := (List.mem_filter.1 hk2).2
      have h1 : strIsPfx (idHex pid) k2 = false := by
        simpa using hmem
      refine ⟨h1, ?_⟩
      cases h2 : strIsPfx (idHex pid ++ "/") k2 with
      | false => rfl
      | true => exact absurd (strIsPfx_of_append h2) (by simp [h1])

/-- C6 witness: the theorem applied at a concrete input (a single
11 MiB entry under the 10 MiB default tier). -/
theorem uploadTar_limit_exceeded_cleanup_witness :
    (UploadTar
        ⟨[⟨"A/u", none, "A", "s1", "o1", "u", 0, none⟩],
         [⟨5, "A/u", .created, "v", "k", 0⟩]⟩
        5 "k" [⟨"big", 11534336, false⟩] defaultLimit 0).1 =
      .error .limitExceeded
    ∧ (UploadTar
        ⟨[⟨"A/u", none, "A", "s1", "o1", "u", 0, none⟩],
         [⟨5, "A/u", .created, "v", "k", 0⟩]⟩
        5 "k" [⟨"big", 11534336, false⟩] defaultLimit 0).2.1 =
      ⟨[⟨"A/u", none, "A", "s1", "o1", "u", 0, none⟩],
       [⟨5, "A/u", .created, "v", "k", 0⟩]⟩ := by
  have h := uploadTar_limit_exceeded_cleanup
    ⟨[⟨"A/u", none, "A", "s1", "o1", "u", 0, none⟩],
     [⟨5, "A/u", .created, "v", "k", 0⟩]⟩
    5 "k" ⟨"A/u", none, "A", "s1", "o1", "u", 0, none⟩
    ⟨5, "A/u", .created, "v", "k", 0⟩ [⟨"big", 11534336, false⟩] 0
    rfl (by decide) (by decide) (by decide)
  exact ⟨h.1, h.2.1⟩

/-! ## Helper lemmas for the GC tick -/

theorem gcLoop_events (bf pf : Nat → Bool) :
    ∀ (ids : List Nat) (pubs : List Publish),
      (gcLoop bf pf ids pubs).2 = ids.flatMap (gcEventsFor bf) := by
  intro ids
  induction ids with
  | nil => intro pubs; rfl
  | cons id rest ih =>
      intro pubs
      simp only [gcLoop, gcEventsFor, List.flatMap_cons]
      by_cases h1 : bf id
      · simp [h1, ih]
      · have h1' : bf id = false := by simpa using h1
        by_cases h2 : pf id
        · simp [h1', h2, ih]
        · have h2' : pf id = false := by simpa using h2
          simp [h1', h2', ih]

theorem gcLoop_mem (bf pf : Nat → Bool) :
    ∀ (ids : List Nat) (pubs : List Publish) (p : Publish),
      p ∈ pubs →
      (∀ id ∈ ids, p.id ≠ id ∨ bf id = true ∨ pf id = true) →
      p ∈ (gcLoop bf pf ids pubs).1 := by
  intro ids
  induction ids with
  | nil => intro pubs p hp _; exact hp
  | cons id rest ih =>
      intro pubs p hp hcond
      simp only [gcLoop]
      by_cases h1 : bf id
      · simp only [h1, if_true]
        exact ih pubs p hp (fun i hi => hcond i (List.mem_cons_of_mem _ hi))
      · have h1' : bf id = false := by simpa using h1
        simp only [h1', Bool.false_eq_true, if_false]
        by_cases h2 : pf id
        · simp only [h2, if_true]
          exact ih pubs p hp (fun i hi => hcond i (List.mem_cons_of_mem _ hi))
        · have h2' : pf id = false := by simpa using h2
          simp only [h2', Bool.false_eq_true, if_false]
          have hpid : p.id ≠ id := by
            rcases hcond id (List.mem_cons_self id rest) with h | h | h
            · exact h
            · rw [h1'] at h; exact absurd h (by simp)
            · rw [h2'] at h; exact absurd h (by simp)
          have hmem : p ∈ deletePublishById pubs id := by
            unfold deletePublishById
            exact (List.mem_eraseP_of_neg (by simpa using hpid)).2 hp
          exact ih (deletePublishById pubs id) p hmem
            (fun i hi => hcond i (List.mem_cons_of_mem _ hi))

/-! ## Claim C7: GC tick ordering and retry -/

/-- C7: in a `Cleanup` tick, the blob/metadata deletions for the
ready-to-delete publishes are exactly, in order, one segment per
streamed id — `DeletePath` first and `DeletePublish` only after a
successful `DeletePath`; a `DeletePublish` is never issued for an id
whose blob deletion failed; the iteration visits every ready id (no
error aborts it); and a publish whose blob deletion failed stays in the
collection, still `READY_TO_DELETE`, to be retried next tick. -/
theorem cleanup_gc_order (st : DbState) (beforeId : Nat) (beforeUnix : Int)
    (bf pf : Nat → Bool) :
    (Cleanup st beforeId beforeUnix bf pf).2 =
      (readyToDeleteIds
        (DeleteOutdatedObjects (DeleteOutdatedPublishes st beforeId).2
          beforeUnix).2.publishes).flatMap (gcEventsFor bf)
    ∧ (∀ id, GcEvent.delPublishRec id ∈ (Cleanup st beforeId beforeUnix bf pf).2 →
        bf id = false)
    ∧ (∀ id ∈ readyToDeleteIds
          (DeleteOutdatedObjects (DeleteOutdatedPublishes st beforeId).2
            beforeUnix).2.publishes,
        GcEvent.delBlobPath id ∈ (Cleanup st beforeId beforeUnix bf pf).2)
    ∧ (∀ p ∈ (DeleteOutdatedObjects (DeleteOutdatedPublishes st beforeId).2
          beforeUnix).2.publishes,
        p.status = .readyToDelete → (bf p.id = true ∨ pf p.id = true) →
        p ∈ (Cleanup st beforeId beforeUnix bf pf).1.publishes
        ∧ p.status = .readyToDelete) := by
  have hev : (Cleanup st beforeId beforeUnix bf pf).2 =
      (readyToDeleteIds
        (DeleteOutdatedObjects (DeleteOutdatedPublishes st beforeId).2
          beforeUnix).2.publishes).flatMap (gcEventsFor bf) :=
    gcLoop_events bf pf _ _
  refine ⟨hev, ?_, ?_, ?_⟩
  · intro id hid
    rw [hev] at hid
    obtain ⟨a, _, hmem⟩ := List.mem_flatMap.1 hid
    unfold gcEventsFor at hmem
    by_cases hba : bf a
    · rw [if_pos hba] at hmem
      simp at hmem
    · have hba' : bf a = false := by simpa using hba
      rw [if_neg (by simp [hba'])] at hmem
      rcases List.mem_cons.1 hmem with h | h
      · exact absurd h (by simp)
      · simp only [List.mem_singleton, GcEvent.delPublishRec.injEq] at h
        rw [h]
        exact hba'
  · intro id hid
    rw [hev]
    refine List.mem_flatMap.2 ⟨id, hid, ?_⟩
    unfold gcEventsFor
    by_cases hb : bf id
    · rw [if_pos hb]; exact List.mem_singleton.2 rfl
    · have hb' : bf id = false := by simpa using hb
      rw [if_neg (by simp [hb'])]
      exact List.mem_cons_self _ _
  · intro p hp hstatus hfail
    refine ⟨?_, hstatus⟩
    apply gcLoop_mem bf pf _ _ p hp
    intro id _
    by_cases heq : p.id = id
    · rcases hfail with h | h
      · exact Or.inr (Or.inl (heq ▸ h))
      · exact Or.inr (Or.inr (heq ▸ h))
    · exact Or.inl heq

/-- C7 witness: the theorem applied at a concrete input — publishes 1
and 2 are ready to delete, blob deletion fails for 1 and succeeds for
2. -/
theorem cleanup_gc_order_witness :
    (Cleanup ⟨[], [⟨1, "a", .readyToDelete, "v", "k", 0⟩,
                   ⟨2, "b", .readyToDelete, "v", "k", 0⟩,
                   ⟨3, "c", .created, "v", "k", 0⟩]⟩
        0 0 (fun id => id == 1) (fun _ => false)).2 =
      (readyToDeleteIds
        (DeleteOutdatedObjects
          (DeleteOutdatedPublishes
            ⟨[], [⟨1, "a", .readyToDelete, "v", "k", 0⟩,
                  ⟨2, "b", .readyToDelete, "v", "k", 0⟩,
                  ⟨3, "c", .created, "v", "k", 0⟩]⟩ 0).2 0).2.publishes).flatMap
        (gcEventsFor (fun id => id == 1))
    ∧ (⟨1, "a", .readyToDelete, "v", "k", 0⟩ : Publish) ∈
        (Cleanup ⟨[], [⟨1, "a", .readyToDelete, "v", "k", 0⟩,
                       ⟨2, "b", .readyToDelete, "v", "k", 0⟩,
                       ⟨3, "c", .created, "v", "k", 0⟩]⟩
          0 0 (fun id => id == 1) (fun _ => false)).1.publishes := by
  have h := cleanup_gc_order
    ⟨[], [⟨1, "a", .readyToDelete, "v", "k", 0⟩,
          ⟨2, "b", .readyToDelete, "v", "k", 0⟩,
          ⟨3, "c", .created, "v", "k", 0⟩]⟩
    0 0 (fun id => id == 1) (fun _ => false)
  exact ⟨h.1, (h.2.2.2 ⟨1, "a", .readyToDelete, "v", "k", 0⟩
    (by decide) (by decide) (Or.inl (by decide))).1⟩

end PublishServer
